import Mathlib

/-!
Verification of the stock alert bot (`src/main.py`).

The development shallowly embeds the program's data model and the
evaluation logic of `main_loop`:

* sheet cells are modelled by `Cell` (blank / numeric / unparseable),
  Python float values by `ℚ`;
* the module-level dict `alert_counters` is modelled as a total function
  `String → Nat` (Python's `dict.get(key, 0)` default);
* the buy-side per-user evaluation (lines 151-170) is `buy_eval_user`,
  the sell-side per-holding evaluation (lines 200-228) is `sell_eval`;
* the Alert_Log worksheet is a list of `SuppressionRecord`s read once per
  cycle; appended rows are collected in the `appended` field of results;
* the whole cycle with its `try/except` is `main_loop_iteration`.
-/

namespace StockBot

/-- An entry of the user directory map built in `load_sheets` (lines 100-106):
`telegram_id` and `email` are strings, empty when absent. -/
structure UserInfo where
  telegram_id : String
  email : String
  deriving DecidableEq

/-- A row of the Alert_Log worksheet, as appended by `log_buy_alert_month`
(lines 119-122): `[user, stock, year_month, "buy", timestamp]`. -/
structure SuppressionRecord where
  user : String
  stock : String
  yearMonth : String
  alertType : String
  timestamp : String
  deriving DecidableEq

/-- The module-level `alert_counters` dict (line 15), as a total map with
default 0, matching `alert_counters.get(key, 0)`. -/
abbrev Counters := String → Nat

/-- Line 16: `MAX_ALERTS_PER_TRIGGER = 5`. -/
def MAX_ALERTS_PER_TRIGGER : Nat := 5

/-- Line 27: `CHECK_INTERVAL = 5 * 60`. -/
def CHECK_INTERVAL : Nat := 5 * 60

/-- Lines 110-117: `buy_alert_sent_this_month` scans the Alert_Log snapshot
for a record matching user, stock, year-month with alert type "buy". -/
def buy_alert_sent_this_month (alert_log_data : List SuppressionRecord)
    (user stock year_month : String) : Bool :=
  alert_log_data.any fun record =>
    record.user == user && record.stock == stock &&
      record.yearMonth == year_month && record.alertType == "buy"

/-- Line 158: the buy alert key
`f"buy:{user_name}:{stock}:{ath_float}:{now.strftime('%Y-%m-%d')}"`. -/
def buy_alert_key (user_name stock : String) (ath_float : ℚ) (today : String) : String :=
  "buy:" ++ user_name ++ ":" ++ stock ++ ":" ++ toString ath_float ++ ":" ++ today

/-- Line 161: the rendered buy message. -/
def buy_msg (stock : String) (live_float ath_float : ℚ) (prev_count : Nat) : String :=
  "📈 *BUY ALERT* for " ++ stock ++ "\nLive: ₹" ++ toString live_float ++
    "\nATH: ₹" ++ toString ath_float ++ " (x" ++ toString (prev_count + 1) ++ ")"

/-- The observable outcome of an evaluation step: the new counter state, the
Telegram sends `(chat_id, message)`, the email sends
`(address, subject, body)`, and the rows appended to the Alert_Log sheet. -/
structure EvalOut where
  counters : Counters
  telegramSent : List (String × String)
  emailSent : List (String × String × String)
  appended : List SuppressionRecord

/-- Lines 151-170, the body of the per-user loop of the buy phase for one
watched stock, given the Alert_Log snapshot `alert_log_data` read at the top
of the cycle and already-parsed `ath_float` and `live_float`:

* line 155: skip entirely when `buy_alert_sent_this_month` holds;
* line 157: the strict trigger test `live_float > ath_float`;
* lines 159-167: consult the counter; when below the cap, send on each
  nonempty channel and store `prev_count + 1`;
* lines 168-170: afterwards (outside the cap test), whenever the stored
  counter equals `MAX_ALERTS_PER_TRIGGER`, append a suppression row. -/
def buy_eval_user (alert_log_data : List SuppressionRecord) (counters : Counters)
    (stock : String) (ath_float live_float : ℚ) (user_name : String)
    (user_info : UserInfo) (year_month today timestamp : String) : EvalOut :=
  let chat_id := user_info.telegram_id
  let email := user_info.email
  if buy_alert_sent_this_month alert_log_data user_name stock year_month then
    ⟨counters, [], [], []⟩
  else if live_float > ath_float then
    let alert_key := buy_alert_key user_name stock ath_float today
    let prev_count := counters alert_key
    let counters' : Counters :=
      if prev_count < MAX_ALERTS_PER_TRIGGER then
        fun k => if k = alert_key then prev_count + 1 else counters k
      else counters
    let telegram :=
      if prev_count < MAX_ALERTS_PER_TRIGGER ∧ chat_id ≠ "" then
        [(chat_id, buy_msg stock live_float ath_float prev_count)]
      else []
    let mails :=
      if prev_count < MAX_ALERTS_PER_TRIGGER ∧ email ≠ "" then
        [(email, "BUY ALERT for " ++ stock, buy_msg stock live_float ath_float prev_count)]
      else []
    let appended :=
      if counters' alert_key = MAX_ALERTS_PER_TRIGGER then
        [⟨user_name, stock, year_month, "buy", timestamp⟩]
      else []
    ⟨counters', telegram, mails, appended⟩
  else ⟨counters, [], [], []⟩

/-- Lines 201-204: look up a user name in the user map
(`user_map[user_name] ... if user_name in user_map else ""`). -/
def lookupUser : List (String × UserInfo) → String → Option UserInfo
  | [], _ => none
  | (n, info) :: rest, name => if n = name then some info else lookupUser rest name

/-- Line 210 / line 214: the sell reasons, interpolating the current
moving-average value (`f"Price below 20M SMA ({sma_20m})"` and
`f"Price below 10M SMA ({sma_10m})"`). -/
def sell_reason_20 (sma_20m : ℚ) : String :=
  "Price below 20M SMA (" ++ toString sma_20m ++ ")"

/-- Line 214: the short-term (10-month SMA) sell reason. -/
def sell_reason_10 (sma_10m : ℚ) : String :=
  "Price below 10M SMA (" ++ toString sma_10m ++ ")"

/-- Lines 205-214: the sell decision `(sell_signal, sell_reason)` for one
holding. The doubling test `live_price < buy_price * 2` selects the branch;
the selected branch triggers only when the live price is below the branch's
SMA and that SMA is positive. -/
def sell_decision (buy_price live_price sma_10m sma_20m : ℚ) : Bool × String :=
  if live_price < buy_price * 2 then
    if live_price < sma_20m ∧ sma_20m > 0 then (true, sell_reason_20 sma_20m)
    else (false, "")
  else
    if live_price < sma_10m ∧ sma_10m > 0 then (true, sell_reason_10 sma_10m)
    else (false, "")

/-- Line 216: the sell alert key `f"sell:{user_name}:{stock}:{sell_reason}"`. -/
def sell_alert_key (user_name stock sell_reason : String) : String :=
  "sell:" ++ user_name ++ ":" ++ stock ++ ":" ++ sell_reason

/-- Line 219: the rendered sell message. -/
def sell_msg (stock : String) (live_price buy_price : ℚ) (sell_reason : String)
    (prev_count : Nat) : String :=
  "🚨 *SELL ALERT* for " ++ stock ++ "\nLive: ₹" ++ toString live_price ++
    "\nBuy Price: ₹" ++ toString buy_price ++ "\n" ++ sell_reason ++
    " (x" ++ toString (prev_count + 1) ++ ")"

/-- Lines 200-228: the sell evaluation of one holding with already-parsed
numeric fields. The owner is looked up in `user_map` (lines 201-204; empty
contact strings when absent); the decision comes from `sell_decision`; on a
signal, the per-key cap of `MAX_ALERTS_PER_TRIGGER` applies (lines 217-228).
No row is ever appended to the Alert_Log sheet in this phase. -/
def sell_eval (user_map : List (String × UserInfo)) (counters : Counters)
    (stock : String) (buy_price live_price sma_10m sma_20m : ℚ)
    (user_name : String) : EvalOut :=
  let chat_id := match lookupUser user_map user_name with
    | some u => u.telegram_id
    | none => ""
  let email := match lookupUser user_map user_name with
    | some u => u.email
    | none => ""
  let sd := sell_decision buy_price live_price sma_10m sma_20m
  if sd.1 then
    let alert_key := sell_alert_key user_name stock sd.2
    let prev_count := counters alert_key
    if prev_count < MAX_ALERTS_PER_TRIGGER then
      ⟨fun k => if k = alert_key then prev_count + 1 else counters k,
        if chat_id ≠ "" then
          [(chat_id, sell_msg stock live_price buy_price sd.2 prev_count)]
        else [],
        if email ≠ "" then
          [(email, "SELL ALERT for " ++ stock, sell_msg stock live_price buy_price sd.2 prev_count)]
        else [],
        []⟩
    else ⟨counters, [], [], []⟩
  else ⟨counters, [], [], []⟩

/-- A spreadsheet cell as the evaluation logic observes it: `blank` stands
for a missing key, `None`, an empty string or a zero (all falsy in Python and
all making `float` either fail or the guards skip the row), `num q` for a
value that `float()` parses to `q`, and `bad` for truthy text that `float()`
rejects. -/
inductive Cell
  | blank
  | num (q : ℚ)
  | bad (s : String)
  deriving DecidableEq

/-- Python truthiness of a cell value, as used by `or` fallbacks and the
`if not ...` row guards: blank values are falsy, a parsed 0 is falsy, other
numbers and non-empty text are truthy. -/
def Cell.truthy : Cell → Bool
  | .blank => false
  | .num q => q != 0
  | .bad _ => true

/-- `float(cell)` (lines 147, 186, 193-194): succeeds exactly on numeric
cells; `blank` stands for `None`/empty text, which `float` rejects. -/
def Cell.parseFloat : Cell → Option ℚ
  | .num q => some q
  | _ => none

/-- A row of the ATH watchlist sheet as read by the buy phase
(lines 140-142): the stock symbol and the two candidate ATH columns. -/
structure AthRow where
  stock : String
  athCurrentMonth : Cell
  ath : Cell

/-- Line 142: `ath = row.get("ATH_Current_Month") or row.get("ATH")`. -/
def AthRow.athCell (row : AthRow) : Cell :=
  if row.athCurrentMonth.truthy then row.athCurrentMonth else row.ath

/-- A row of the Active Holdings sheet as read by the sell phase
(lines 180-200). -/
structure HoldingRow where
  stock : String
  buyPrice : Cell
  sma10 : Cell
  sma20 : Cell
  name : String

/-- Fold one `EvalOut` produced for a single user/holding into the running
phase output, threading the counters and accumulating the send and append
lists in program order. -/
def EvalOut.merge (acc : EvalOut) (r : EvalOut) : EvalOut :=
  ⟨r.counters, acc.telegramSent ++ r.telegramSent, acc.emailSent ++ r.emailSent,
    acc.appended ++ r.appended⟩

/-- Lines 151-170: the inner loop of the buy phase over all directory users
for one parsed watchlist row. -/
def buy_eval_users (alert_log_data : List SuppressionRecord)
    (users : List (String × UserInfo)) (stock : String) (ath_float live_float : ℚ)
    (year_month today timestamp : String) (acc : EvalOut) : EvalOut :=
  match users with
  | [] => acc
  | (user_name, user_info) :: rest =>
      let r := buy_eval_user alert_log_data acc.counters stock ath_float live_float
        user_name user_info year_month today timestamp
      buy_eval_users alert_log_data rest stock ath_float live_float
        year_month today timestamp (acc.merge r)

/-- Lines 140-170: the buy phase for one watchlist row, with the row guards
of lines 144-150 (missing symbol, falsy ATH cell, missing live price, float
parse failure all skip the row). -/
def buy_eval_row (alert_log_data : List SuppressionRecord)
    (users : List (String × UserInfo)) (prices : String → Option ℚ)
    (year_month today timestamp : String) (row : AthRow) (acc : EvalOut) : EvalOut :=
  match prices row.stock with
  | none => acc
  | some live_float =>
      if row.stock = "" then acc
      else if !row.athCell.truthy then acc
      else match row.athCell.parseFloat with
        | none => acc
        | some ath_float =>
            buy_eval_users alert_log_data users row.stock ath_float live_float
              year_month today timestamp acc

/-- The buy phase over the whole watchlist (the outer loop of lines 140-170). -/
def buy_phase (alert_log_data : List SuppressionRecord)
    (users : List (String × UserInfo)) (prices : String → Option ℚ)
    (year_month today timestamp : String) : List AthRow → EvalOut → EvalOut
  | [], acc => acc
  | row :: rest, acc =>
      buy_phase alert_log_data users prices year_month today timestamp rest
        (buy_eval_row alert_log_data users prices year_month today timestamp row acc)

/-- Lines 180-228: the sell phase for one holdings row, with the guards of
lines 181-199 (missing symbol, buy-price or SMA parse failure, missing live
price all skip the row; blank SMA cells read as 0 via `or 0`). -/
def sell_eval_row (user_map : List (String × UserInfo)) (prices : String → Option ℚ)
    (row : HoldingRow) (acc : EvalOut) : EvalOut :=
  if row.stock = "" then acc
  else match row.buyPrice.parseFloat with
    | none => acc
    | some buy_price =>
        match prices row.stock with
        | none => acc
        | some live_price =>
            let sma10cell := if row.sma10.truthy then row.sma10 else .num 0
            let sma20cell := if row.sma20.truthy then row.sma20 else .num 0
            match sma10cell.parseFloat, sma20cell.parseFloat with
            | some sma_10m, some sma_20m =>
                acc.merge (sell_eval user_map acc.counters row.stock buy_price live_price
                  sma_10m sma_20m row.name)
            | _, _ => acc

/-- The sell phase over all active holdings (the outer loop of
lines 180-228). -/
def sell_phase (user_map : List (String × UserInfo)) (prices : String → Option ℚ) :
    List HoldingRow → EvalOut → EvalOut
  | [], acc => acc
  | row :: rest, acc =>
      sell_phase user_map prices rest (sell_eval_row user_map prices row acc)

/-- Line 50: the exchange-suffix normalization
`yf_symbol = symbol.upper() + ".NS"`. -/
def yf_symbol (symbol : String) : String := symbol.toUpper ++ ".NS"

/-- Lines 49-61: one `fetch_price` task. The market-data outcome for the
normalized symbol is given by `oracle` (`none` covers both an empty history
and a raised exception, lines 57-61); the task always enqueues exactly one
`(symbol, outcome)` pair, keyed by the original symbol. -/
def fetch_price (oracle : String → Option ℚ) (symbol : String) : String × Option ℚ :=
  (symbol, oracle (yf_symbol symbol))

/-- Lines 72-76: drain the output queue into the result dict, later entries
overwriting earlier ones (`result[sym] = price`). The outer `Option` is dict
membership; the inner one is the possibly-absent price. -/
def drain_queue : List (String × Option ℚ) → (String → Option (Option ℚ)) →
    (String → Option (Option ℚ))
  | [], result => result
  | (sym, price) :: rest, result =>
      drain_queue rest (fun k => if k = sym then some price else result k)

/-- Lines 63-76: `get_prices`, parametrized by the order `queue_items` in
which the concurrently-enqueued pairs are drained (any permutation of the
per-symbol `fetch_price` outputs). -/
def get_prices (queue_items : List (String × Option ℚ)) : String → Option (Option ℚ) :=
  drain_queue queue_items (fun _ => none)

/-- Line 143 / line 189: `prices.get(stock)` — `None` both when the key is
absent and when the stored value is `None`. -/
def price_lookup (result : String → Option (Option ℚ)) (stock : String) : Option ℚ :=
  match result stock with
  | some v => v
  | none => none

/-- The data `load_sheets` (lines 78-107) returns to one cycle. -/
structure SheetData where
  ath_data : List AthRow
  user_map : List (String × UserInfo)
  active_data : List HoldingRow
  alert_log_data : List SuppressionRecord

/-- The external world of one cycle: the sheets (`none` when `load_sheets`
raises), the market-data oracle, whether `append_row` raises, and the
formatted dates. -/
structure CycleEnv where
  sheets : Option SheetData
  oracle : String → Option ℚ
  appendRaises : Bool
  year_month : String
  today : String
  timestamp : String

/-- The buy phase of the cycle with the `append_row` failure point of
line 170: when `appendRaises` is set, the first attempted append raises and
abandons the cycle, keeping the counters mutated so far (the increment of
line 167 precedes the append of line 170). `Except.error` carries the
surviving counter state. -/
def buy_phase_exc (env : CycleEnv) (alert_log_data : List SuppressionRecord)
    (users : List (String × UserInfo)) (prices : String → Option ℚ) :
    List AthRow → EvalOut → Except Counters EvalOut
  | [], acc => .ok acc
  | row :: rest, acc =>
      let acc' := buy_eval_row alert_log_data users prices env.year_month env.today
        env.timestamp row acc
      if env.appendRaises ∧ acc'.appended ≠ [] then .error acc'.counters
      else buy_phase_exc env alert_log_data users prices rest acc'

/-- Lines 130-233: one cycle body, i.e. the `try:` block — load the sheets,
run the buy phase (fetching prices first), then the sell phase. An error
anywhere yields `Except.error` with the counter state at that point. -/
def run_cycle (env : CycleEnv) (counters : Counters) : Except Counters Counters :=
  match env.sheets with
  | none => .error counters
  | some d =>
      let prices := fun s => price_lookup (get_prices (d.ath_data.map (fun r => r.stock)
        |>.filter (fun s => s ≠ "") |>.map (fetch_price env.oracle))) s
      match buy_phase_exc env d.alert_log_data d.user_map prices d.ath_data
        ⟨counters, [], [], []⟩ with
      | .error c => .error c
      | .ok acc =>
          let ah_prices := fun s => price_lookup (get_prices (d.active_data.map
            (fun r => r.stock) |>.filter (fun s => s ≠ "") |>.map (fetch_price env.oracle))) s
          .ok (sell_phase d.user_map ah_prices d.active_data acc).counters

/-- Lines 126-238: one iteration of the `while True:` loop — run the cycle
body under `try/except` (line 232 catches everything) and fall through to
the sleep of line 238. Returns the counter state for the next iteration and
the sleep duration. -/
def main_loop_iteration (env : CycleEnv) (counters : Counters) : Counters × Nat :=
  match run_cycle env counters with
  | .ok c => (c, CHECK_INTERVAL)
  | .error c => (c, CHECK_INTERVAL)

/-- The scan loop run over a stream of cycle environments; the second
component counts the completed sleep-and-continue iterations. -/
def run_cycles : List CycleEnv → Counters → Counters × Nat
  | [], c => (c, 0)
  | env :: rest, c =>
      let step := main_loop_iteration env c
      let tail := run_cycles rest step.1
      (tail.1, tail.2 + 1)

/-- Decimal digit value of a character (used only to invert `Nat.repr`). -/
def charToDigit (c : Char) : Nat := c.toNat - 48

/-- Decode a most-significant-first decimal digit string back to a number:
a left inverse of `Nat.toDigits 10`, used to prove rendering injective. -/
def decodeDigits (l : List Char) : Nat :=
  l.foldl (fun a c => 10 * a + charToDigit c) 0


/-! ### Injectivity of the numeric rendering used in alert keys

Python interpolates float values into alert keys and sell reasons; in the
embedding the rendering is `toString : ℚ → String`. The following chain
establishes that this rendering is injective, so distinct values yield
distinct keys. -/

theorem charToDigit_digitChar (d : Nat) (h : d < 10) :
    charToDigit (Nat.digitChar d) = d := by
  interval_cases d <;> decide

theorem toDigitsCore_append (b f : Nat) :
    ∀ (n : Nat) (ds : List Char),
      Nat.toDigitsCore b f n ds = Nat.toDigitsCore b f n [] ++ ds := by
  induction f with
  | zero => intro n ds; simp [Nat.toDigitsCore]
  | succ f ih =>
      intro n ds
      simp only [Nat.toDigitsCore]
      by_cases h : n / b = 0
      · simp [h]
      · simp only [if_neg h]
        rw [ih (n / b) (Nat.digitChar (n % b) :: ds), ih (n / b) [Nat.digitChar (n % b)]]
        simp

theorem toDigitsCore_fuel (f : Nat) :
    ∀ (g n : Nat), 0 < f → 0 < g → n < 10 ^ f → n < 10 ^ g →
      Nat.toDigitsCore 10 f n [] = Nat.toDigitsCore 10 g n [] := by
  induction f with
  | zero => intro g n hf _ _ _; exact absurd hf (by omega)
  | succ f ih =>
      intro g n _ hg hnf hng
      obtain ⟨g', rfl⟩ : ∃ g', g = g' + 1 := ⟨g - 1, by omega⟩
      simp only [Nat.toDigitsCore]
      by_cases h : n / 10 = 0
      · simp [h]
      · simp only [if_neg h]
        have hn10 : 10 ≤ n := by
          by_contra hlt
          exact h (Nat.div_eq_of_lt (by omega))
        have hf' : 0 < f := by
          rcases Nat.eq_zero_or_pos f with rfl | hf'
          · simp at hnf; omega
          · exact hf'
        have hg' : 0 < g' := by
          rcases Nat.eq_zero_or_pos g' with rfl | hg'
          · simp at hng; omega
          · exact hg'
        have hdf : n / 10 < 10 ^ f := by
          rw [Nat.div_lt_iff_lt_mul (by norm_num)]
          calc n < 10 ^ (f + 1) := hnf
            _ = 10 ^ f * 10 := by ring
        have hdg : n / 10 < 10 ^ g' := by
          rw [Nat.div_lt_iff_lt_mul (by norm_num)]
          calc n < 10 ^ (g' + 1) := hng
            _ = 10 ^ g' * 10 := by ring
        rw [toDigitsCore_append 10 f (n / 10) [Nat.digitChar (n % 10)],
            toDigitsCore_append 10 g' (n / 10) [Nat.digitChar (n % 10)],
            ih g' (n / 10) hf' hg' hdf hdg]

theorem decodeDigits_toDigits : ∀ n : Nat, decodeDigits (Nat.toDigits 10 n) = n := by
  intro n
  induction n using Nat.strong_induction_on with
  | _ n ih =>
      show decodeDigits (Nat.toDigitsCore 10 (n + 1) n []) = n
      simp only [Nat.toDigitsCore]
      by_cases h : n / 10 = 0
      · have hn : n < 10 := by omega
        simp only [h, if_pos]
        have : n % 10 = n := Nat.mod_eq_of_lt hn
        simp [decodeDigits, this, charToDigit_digitChar n hn]
      · simp only [if_neg h]
        have hn10 : 10 ≤ n := by
          by_contra hlt
          exact h (Nat.div_eq_of_lt (by omega))
        have hfuel : Nat.toDigitsCore 10 n (n / 10) [] =
            Nat.toDigitsCore 10 (n / 10 + 1) (n / 10) [] := by
          apply toDigitsCore_fuel
          · omega
          · omega
          · calc n / 10 ≤ n := Nat.div_le_self n 10
              _ < 10 ^ n := Nat.lt_pow_self (by norm_num) n
          · calc n / 10 < 10 ^ (n / 10) := Nat.lt_pow_self (by norm_num) (n / 10)
              _ ≤ 10 ^ (n / 10 + 1) := Nat.pow_le_pow_right (by norm_num) (by omega)
        rw [toDigitsCore_append 10 n (n / 10) [Nat.digitChar (n % 10)], hfuel]
        have hihdiv : decodeDigits (Nat.toDigits 10 (n / 10)) = n / 10 :=
          ih (n / 10) (Nat.div_lt_self (by omega) (by norm_num))
        show decodeDigits (Nat.toDigits 10 (n / 10) ++ [Nat.digitChar (n % 10)]) = n
        simp only [decodeDigits, List.foldl_append] at hihdiv ⊢
        rw [hihdiv]
        simp [charToDigit_digitChar (n % 10) (Nat.mod_lt n (by norm_num))]
        omega

theorem nat_repr_injective : Function.Injective Nat.repr := by
  intro m n h
  have h2 : Nat.toDigits 10 m = Nat.toDigits 10 n := congrArg String.data h
  rw [← decodeDigits_toDigits m, ← decodeDigits_toDigits n, h2]

theorem digitChar_ge_16 (d : Nat) (h : 16 ≤ d) : Nat.digitChar d = '*' := by
  unfold Nat.digitChar
  repeat rw [if_neg (by omega)]

theorem digitChar_ne (d : Nat) : Nat.digitChar d ≠ '-' ∧ Nat.digitChar d ≠ '/' := by
  by_cases h : d < 16
  · interval_cases d <;> exact ⟨by decide, by decide⟩
  · rw [digitChar_ge_16 d (by omega)]
    exact ⟨by decide, by decide⟩

theorem toDigitsCore_chars (b f : Nat) :
    ∀ (n : Nat) (ds : List Char) (c : Char), c ∈ Nat.toDigitsCore b f n ds →
      c ∈ ds ∨ ∃ d, c = Nat.digitChar d := by
  induction f with
  | zero => intro n ds c hc; exact Or.inl hc
  | succ f ih =>
      intro n ds c hc
      simp only [Nat.toDigitsCore] at hc
      by_cases h : n / b = 0
      · rw [if_pos h] at hc
        rcases List.mem_cons.mp hc with h1 | h1
        · exact Or.inr ⟨n % b, h1⟩
        · exact Or.inl h1
      · rw [if_neg h] at hc
        rcases ih (n / b) (Nat.digitChar (n % b) :: ds) c hc with h1 | h1
        · rcases List.mem_cons.mp h1 with h2 | h2
          · exact Or.inr ⟨n % b, h2⟩
          · exact Or.inl h2
        · exact Or.inr h1

theorem nat_repr_chars (n : Nat) (c : Char) (hc : c ∈ (Nat.repr n).data) :
    c ≠ '-' ∧ c ≠ '/' := by
  have : c ∈ Nat.toDigits 10 n := hc
  rcases toDigitsCore_chars 10 (n + 1) n [] c this with h | ⟨d, rfl⟩
  · simp at h
  · exact digitChar_ne d

theorem toDigits_ne_nil (n : Nat) : Nat.toDigits 10 n ≠ [] := by
  show Nat.toDigitsCore 10 (n + 1) n [] ≠ []
  simp only [Nat.toDigitsCore]
  by_cases h : n / 10 = 0
  · simp [h]
  · rw [if_neg h, toDigitsCore_append 10 n (n / 10) [Nat.digitChar (n % 10)]]
    simp

theorem string_data_append (s t : String) : (s ++ t).data = s.data ++ t.data := rfl

theorem int_toString_ofNat (m : Nat) : toString (Int.ofNat m) = Nat.repr m := rfl

theorem int_toString_negSucc (m : Nat) :
    toString (Int.negSucc m) = "-" ++ Nat.repr (m + 1) := rfl

theorem int_toString_chars (i : Int) (c : Char) (hc : c ∈ (toString i).data) :
    c = '-' ∨ (c ≠ '-' ∧ c ≠ '/') := by
  cases i with
  | ofNat m =>
      rw [int_toString_ofNat m] at hc
      exact Or.inr (nat_repr_chars m c hc)
  | negSucc m =>
      rw [int_toString_negSucc m] at hc
      rcases List.mem_cons.mp hc with h | h
      · exact Or.inl h
      · exact Or.inr (nat_repr_chars (m + 1) c h)

theorem int_toString_no_slash (i : Int) : '/' ∉ (toString i).data := by
  intro hmem
  rcases int_toString_chars i '/' hmem with h | ⟨_, h⟩
  · exact absurd h (by decide)
  · exact h rfl

theorem int_toString_injective : Function.Injective (toString : Int → String) := by
  intro i j h
  cases i with
  | ofNat m =>
      cases j with
      | ofNat n =>
          rw [int_toString_ofNat m, int_toString_ofNat n] at h
          exact congrArg Int.ofNat (nat_repr_injective h)
      | negSucc n =>
          exfalso
          rw [int_toString_ofNat m, int_toString_negSucc n] at h
          have hd : (Nat.repr m).data = '-' :: (Nat.repr (n + 1)).data :=
            congrArg String.data h
          have : '-' ∈ (Nat.repr m).data := by rw [hd]; exact List.mem_cons_self _ _
          exact (nat_repr_chars m '-' this).1 rfl
  | negSucc m =>
      cases j with
      | ofNat n =>
          exfalso
          rw [int_toString_negSucc m, int_toString_ofNat n] at h
          have hd : '-' :: (Nat.repr (m + 1)).data = (Nat.repr n).data :=
            congrArg String.data h
          have : '-' ∈ (Nat.repr n).data := by rw [← hd]; exact List.mem_cons_self _ _
          exact (nat_repr_chars n '-' this).1 rfl
      | negSucc n =>
          rw [int_toString_negSucc m, int_toString_negSucc n] at h
          have hd : '-' :: (Nat.repr (m + 1)).data = '-' :: (Nat.repr (n + 1)).data :=
            congrArg String.data h
          have hd' : (Nat.repr (m + 1)).data = (Nat.repr (n + 1)).data :=
            List.tail_eq_of_cons_eq hd
          have : m + 1 = n + 1 := nat_repr_injective (String.ext hd')
          exact congrArg Int.negSucc (by omega)

theorem nat_toString_injective : Function.Injective (toString : Nat → String) :=
  nat_repr_injective

theorem rat_toString_data (q : ℚ) : (toString q).data =
    if q.den = 1 then (toString q.num).data
    else (toString q.num).data ++ '/' :: (toString q.den).data := by
  show (instToStringRat.toString q).data = _
  unfold instToStringRat
  by_cases h : q.den = 1
  · simp only [h, if_pos]
  · simp only [if_neg h]
    have hemp : ("" : String).data = [] := rfl
    have hsl : ("/" : String).data = ['/'] := rfl
    have hid : ∀ s : String, (toString s : String) = s := fun _ => rfl
    simp [string_data_append, hemp, hsl, hid]

theorem mem_split_unique (a : Char) :
    ∀ (l1 : List Char) (l2 : List Char) (r1 r2 : List Char), a ∉ l1 → a ∉ l2 →
      l1 ++ a :: r1 = l2 ++ a :: r2 → l1 = l2 ∧ r1 = r2 := by
  intro l1
  induction l1 with
  | nil =>
      intro l2 r1 r2 _ hl2 h
      cases l2 with
      | nil => simpa using h
      | cons b l2' =>
          simp only [List.nil_append, List.cons_append, List.cons.injEq] at h
          exact absurd (h.1 ▸ List.mem_cons_self a l2') hl2
  | cons b l1' ih =>
      intro l2 r1 r2 hl1 hl2 h
      cases l2 with
      | nil =>
          simp only [List.cons_append, List.nil_append, List.cons.injEq] at h
          exact absurd (h.1 ▸ List.mem_cons_self a l1') (h.1 ▸ hl1)
      | cons c l2' =>
          simp only [List.cons_append, List.cons.injEq] at h
          have hrec := ih l2' r1 r2 (fun hm => hl1 (List.mem_cons_of_mem b hm))
            (fun hm => hl2 (List.mem_cons_of_mem c hm)) h.2
          exact ⟨by rw [h.1, hrec.1], hrec.2⟩

theorem rat_toString_injective : Function.Injective (toString : ℚ → String) := by
  intro p q h
  have hd : (toString p).data = (toString q).data := congrArg String.data h
  rw [rat_toString_data p, rat_toString_data q] at hd
  by_cases hp : p.den = 1 <;> by_cases hq : q.den = 1
  · rw [if_pos hp, if_pos hq] at hd
    exact Rat.ext (int_toString_injective (String.ext hd)) (hp.trans hq.symm)
  · exfalso
    rw [if_pos hp, if_neg hq] at hd
    have : '/' ∈ (toString p.num).data := by
      rw [hd]
      exact List.mem_append_right _ (List.mem_cons_self _ _)
    exact int_toString_no_slash p.num this
  · exfalso
    rw [if_neg hp, if_pos hq] at hd
    have : '/' ∈ (toString q.num).data := by
      rw [← hd]
      exact List.mem_append_right _ (List.mem_cons_self _ _)
    exact int_toString_no_slash q.num this
  · rw [if_neg hp, if_neg hq] at hd
    have hsplit := mem_split_unique '/' (toString p.num).data (toString q.num).data
      (toString p.den).data (toString q.den).data
      (int_toString_no_slash p.num) (int_toString_no_slash q.num) hd
    have hnum : p.num = q.num := int_toString_injective (String.ext hsplit.1)
    have hden : p.den = q.den := nat_toString_injective (String.ext hsplit.2)
    exact Rat.ext hnum hden

/-! ### Case lemmas for the evaluation functions -/

/-- The suppression check of `buy_alert_sent_this_month` holds exactly when a
matching buy record is in the snapshot. -/
theorem buy_alert_sent_spec (log : List SuppressionRecord) (u s ym : String) :
    buy_alert_sent_this_month log u s ym = true ↔
      ∃ r ∈ log, r.user = u ∧ r.stock = s ∧ r.yearMonth = ym ∧ r.alertType = "buy" := by
  simp [buy_alert_sent_this_month, List.any_eq_true, Bool.and_eq_true, beq_iff_eq,
    and_assoc]

theorem buy_eval_user_suppressed (log : List SuppressionRecord) (counters : Counters)
    (stock : String) (ath live : ℚ) (u : String) (info : UserInfo) (ym today ts : String)
    (h : buy_alert_sent_this_month log u stock ym = true) :
    buy_eval_user log counters stock ath live u info ym today ts =
      ⟨counters, [], [], []⟩ := by
  unfold buy_eval_user
  simp [h]

theorem buy_eval_user_no_trigger (log : List SuppressionRecord) (counters : Counters)
    (stock : String) (ath live : ℚ) (u : String) (info : UserInfo) (ym today ts : String)
    (h : ¬ live > ath) :
    buy_eval_user log counters stock ath live u info ym today ts =
      ⟨counters, [], [], []⟩ := by
  unfold buy_eval_user
  by_cases hs : buy_alert_sent_this_month log u stock ym = true
  · simp [hs]
  · simp [hs, h]

theorem buy_eval_user_capped (log : List SuppressionRecord) (counters : Counters)
    (stock : String) (ath live : ℚ) (u : String) (info : UserInfo) (ym today ts : String)
    (hs : buy_alert_sent_this_month log u stock ym = false)
    (hgt : live > ath)
    (hcap : ¬ counters (buy_alert_key u stock ath today) < MAX_ALERTS_PER_TRIGGER) :
    buy_eval_user log counters stock ath live u info ym today ts =
      ⟨counters, [], [],
        if counters (buy_alert_key u stock ath today) = MAX_ALERTS_PER_TRIGGER then
          [⟨u, stock, ym, "buy", ts⟩]
        else []⟩ := by
  unfold buy_eval_user
  simp [hs, hgt, hcap]

theorem buy_eval_user_send (log : List SuppressionRecord) (counters : Counters)
    (stock : String) (ath live : ℚ) (u : String) (info : UserInfo) (ym today ts : String)
    (hs : buy_alert_sent_this_month log u stock ym = false)
    (hgt : live > ath)
    (hlt : counters (buy_alert_key u stock ath today) < MAX_ALERTS_PER_TRIGGER) :
    buy_eval_user log counters stock ath live u info ym today ts =
      ⟨fun k => if k = buy_alert_key u stock ath today then
          counters (buy_alert_key u stock ath today) + 1
        else counters k,
        if info.telegram_id = "" then [] else
          [(info.telegram_id,
            buy_msg stock live ath (counters (buy_alert_key u stock ath today)))],
        if info.email = "" then [] else
          [(info.email, "BUY ALERT for " ++ stock,
            buy_msg stock live ath (counters (buy_alert_key u stock ath today)))],
        if counters (buy_alert_key u stock ath today) + 1 = MAX_ALERTS_PER_TRIGGER then
          [⟨u, stock, ym, "buy", ts⟩]
        else []⟩ := by
  unfold buy_eval_user
  simp [hs, hgt, hlt]

theorem string_append_left_cancel (s t1 t2 : String) (h : s ++ t1 = s ++ t2) :
    t1 = t2 := by
  apply String.ext
  have hd : s.data ++ t1.data = s.data ++ t2.data := by
    rw [← string_data_append, ← string_data_append, h]
  exact List.append_cancel_left hd

theorem string_append_right_cancel (t1 t2 s : String) (h : t1 ++ s = t2 ++ s) :
    t1 = t2 := by
  apply String.ext
  have hd : t1.data ++ s.data = t2.data ++ s.data := by
    rw [← string_data_append, ← string_data_append, h]
  exact List.append_cancel_right hd

theorem rat_render_inj (a b : ℚ) (h : a ≠ b) : toString a ≠ toString b :=
  fun he => h (rat_toString_injective he)

theorem sell_reason_20_inj (a b : ℚ) (h : a ≠ b) :
    sell_reason_20 a ≠ sell_reason_20 b := by
  intro he
  unfold sell_reason_20 at he
  have h1 := string_append_right_cancel _ _ _ he
  have h2 := string_append_left_cancel _ _ _ h1
  exact rat_render_inj a b h h2

theorem sell_reason_10_inj (a b : ℚ) (h : a ≠ b) :
    sell_reason_10 a ≠ sell_reason_10 b := by
  intro he
  unfold sell_reason_10 at he
  have h1 := string_append_right_cancel _ _ _ he
  have h2 := string_append_left_cancel _ _ _ h1
  exact rat_render_inj a b h h2

theorem sell_reason_branches_ne (a b : ℚ) : sell_reason_20 a ≠ sell_reason_10 b := by
  intro he
  unfold sell_reason_20 sell_reason_10 at he
  have h1 := string_append_right_cancel _ _ _ he
  have hd : ("Price below 20M SMA (" : String).data ++ (toString a).data =
      ("Price below 10M SMA (" : String).data ++ (toString b).data := by
    rw [← string_data_append, ← string_data_append, h1]
  have hlen : ("Price below 20M SMA (" : String).data.length =
      ("Price below 10M SMA (" : String).data.length := by decide
  have := (List.append_inj hd hlen).1
  exact absurd this (by decide)

theorem sell_alert_key_reason_inj (u stock r1 r2 : String)
    (h : sell_alert_key u stock r1 = sell_alert_key u stock r2) : r1 = r2 := by
  unfold sell_alert_key at h
  exact string_append_left_cancel _ _ _ h

theorem sell_eval_appended (um : List (String × UserInfo)) (counters : Counters)
    (stock : String) (bp lp s10 s20 : ℚ) (uname : String) :
    (sell_eval um counters stock bp lp s10 s20 uname).appended = [] := by
  unfold sell_eval
  by_cases h : (sell_decision bp lp s10 s20).1 = true
  · by_cases h2 : counters (sell_alert_key uname stock (sell_decision bp lp s10 s20).2) <
        MAX_ALERTS_PER_TRIGGER
    · simp [h, h2]
    · simp [h, h2]
  · simp [h]

theorem sell_eval_counters_frame (um : List (String × UserInfo)) (counters : Counters)
    (stock : String) (bp lp s10 s20 : ℚ) (uname k : String)
    (hk : k ≠ sell_alert_key uname stock (sell_decision bp lp s10 s20).2) :
    (sell_eval um counters stock bp lp s10 s20 uname).counters k = counters k := by
  unfold sell_eval
  by_cases h : (sell_decision bp lp s10 s20).1 = true
  · by_cases h2 : counters (sell_alert_key uname stock (sell_decision bp lp s10 s20).2) <
        MAX_ALERTS_PER_TRIGGER
    · simp [h, h2, hk]
    · simp [h, h2]
  · simp [h]

theorem sell_eval_no_signal (um : List (String × UserInfo)) (counters : Counters)
    (stock : String) (bp lp s10 s20 : ℚ) (uname : String)
    (h : (sell_decision bp lp s10 s20).1 = false) :
    sell_eval um counters stock bp lp s10 s20 uname = ⟨counters, [], [], []⟩ := by
  unfold sell_eval
  simp [h]

theorem sell_eval_capped (um : List (String × UserInfo)) (counters : Counters)
    (stock : String) (bp lp s10 s20 : ℚ) (uname : String)
    (hcap : ¬ counters (sell_alert_key uname stock (sell_decision bp lp s10 s20).2) <
      MAX_ALERTS_PER_TRIGGER) :
    sell_eval um counters stock bp lp s10 s20 uname = ⟨counters, [], [], []⟩ := by
  unfold sell_eval
  by_cases h : (sell_decision bp lp s10 s20).1 = true
  · simp [h, hcap]
  · simp [h]

theorem sell_eval_send (um : List (String × UserInfo)) (counters : Counters)
    (stock : String) (bp lp s10 s20 : ℚ) (uname : String)
    (hsig : (sell_decision bp lp s10 s20).1 = true)
    (hlt : counters (sell_alert_key uname stock (sell_decision bp lp s10 s20).2) <
      MAX_ALERTS_PER_TRIGGER) :
    (sell_eval um counters stock bp lp s10 s20 uname).counters
        (sell_alert_key uname stock (sell_decision bp lp s10 s20).2) =
      counters (sell_alert_key uname stock (sell_decision bp lp s10 s20).2) + 1 := by
  unfold sell_eval
  simp [hsig, hlt]

theorem sell_eval_no_contact (um : List (String × UserInfo)) (counters : Counters)
    (stock : String) (bp lp s10 s20 : ℚ) (uname : String)
    (habs : lookupUser um uname = none) :
    (sell_eval um counters stock bp lp s10 s20 uname).telegramSent = [] ∧
    (sell_eval um counters stock bp lp s10 s20 uname).emailSent = [] := by
  unfold sell_eval
  by_cases h : (sell_decision bp lp s10 s20).1 = true
  · by_cases h2 : counters (sell_alert_key uname stock (sell_decision bp lp s10 s20).2) <
        MAX_ALERTS_PER_TRIGGER
    · simp [h, h2, habs]
    · simp [h, h2]
  · simp [h]

theorem sell_eval_row_appended (um : List (String × UserInfo))
    (prices : String → Option ℚ) (row : HoldingRow) (acc : EvalOut) :
    (sell_eval_row um prices row acc).appended = acc.appended := by
  unfold sell_eval_row
  by_cases h1 : row.stock = ""
  · simp [h1]
  · simp only [h1, if_neg, if_false]
    cases hbp : row.buyPrice.parseFloat with
    | none => rfl
    | some bp =>
        cases hpr : prices row.stock with
        | none => rfl
        | some lp =>
            cases h10 : (if row.sma10.truthy then row.sma10 else Cell.num 0).parseFloat with
            | none => simp
            | some s10 =>
                cases h20 : (if row.sma20.truthy then row.sma20 else Cell.num 0).parseFloat with
                | none => simp [h10]
                | some s20 => simp [h10, h20, EvalOut.merge, sell_eval_appended]

theorem sell_phase_appended (um : List (String × UserInfo))
    (prices : String → Option ℚ) (rows : List HoldingRow) (acc : EvalOut) :
    (sell_phase um prices rows acc).appended = acc.appended := by
  induction rows generalizing acc with
  | nil => rfl
  | cons row rest ih =>
      unfold sell_phase
      rw [ih, sell_eval_row_appended]

theorem drain_queue_untouched (s : String) :
    ∀ (items : List (String × Option ℚ)) (m : String → Option (Option ℚ)),
      (∀ p ∈ items, p.1 ≠ s) → drain_queue items m s = m s := by
  intro items
  induction items with
  | nil => intro m _; rfl
  | cons p rest ih =>
      intro m hne
      unfold drain_queue
      rw [ih _ (fun q hq => hne q (List.mem_cons_of_mem p hq))]
      have : s ≠ p.1 := fun hs => hne p (List.mem_cons_self p rest) hs.symm
      simp [this]

theorem drain_queue_found (s : String) (v : Option ℚ) :
    ∀ (items : List (String × Option ℚ)) (m : String → Option (Option ℚ)),
      (∀ p ∈ items, p.1 = s → p.2 = v) → (∃ p ∈ items, p.1 = s) →
      drain_queue items m s = some v := by
  intro items
  induction items with
  | nil => intro m _ hex; simp at hex
  | cons p rest ih =>
      intro m hval hex
      unfold drain_queue
      by_cases hrest : ∃ q ∈ rest, q.1 = s
      · exact ih _ (fun q hq => hval q (List.mem_cons_of_mem p hq)) hrest
      · have hp : p.1 = s := by
          rcases hex with ⟨q, hq, hqs⟩
          rcases List.mem_cons.mp hq with rfl | hq'
          · exact hqs
          · exact absurd ⟨q, hq', hqs⟩ hrest
        have hpv : p.2 = v := hval p (List.mem_cons_self p rest) hp
        rw [drain_queue_untouched s rest _
          (fun q hq hqs => hrest ⟨q, hq, hqs⟩)]
        simp [hp, hpv]

theorem empty_ne_sell_alert_key (u s r : String) : "" ≠ sell_alert_key u s r := by
  intro h
  have hd := congrArg String.data h
  rw [sell_alert_key] at hd
  simp [string_data_append] at hd

/-- C1: the code violates the claimed idempotence. With the counter for the
buy alert key already at the cap of 5 and a suppression-log snapshot that does
not yet contain the `(user, stock, yearMonth)` record, re-running the buy
evaluation with identical inputs sends nothing on either channel and changes
no counter, yet appends a further MonthlySuppressionRecord: the append
condition of line 169 reads the stored counter and sits outside the
`prev_count < MAX_ALERTS_PER_TRIGGER` guard of line 160, so it fires on every
such re-evaluation, not only at the transition to the cap. -/
theorem claim_C1_rerun_at_cap_appends_again :
    buy_eval_user [] (fun _ => 5) "S" 100 110 "U" ⟨"123", "user@example.com"⟩
        "2025-10" "2025-10-12" "ts" =
      ⟨fun _ => 5, [], [], [⟨"U", "S", "2025-10", "buy", "ts"⟩]⟩ := by
  rw [buy_eval_user_capped [] (fun _ => 5) "S" 100 110 "U" ⟨"123", "user@example.com"⟩
    "2025-10" "2025-10-12" "ts" rfl (by norm_num) (by norm_num [MAX_ALERTS_PER_TRIGGER])]
  norm_num [MAX_ALERTS_PER_TRIGGER]

/-- C2: a buy suppression record for `(user, stock, yearMonth)` present in the
snapshot read at the start of the cycle makes the buy evaluation for that pair
a complete no-op — no notification on either channel, no counter change, no
append — for every live price, including prices strictly above the ATH. -/
theorem claim_C2_suppression_blocks_all (log : List SuppressionRecord)
    (counters : Counters) (stock : String) (ath live : ℚ) (u : String)
    (info : UserInfo) (ym today ts : String)
    (h : ∃ r ∈ log, r.user = u ∧ r.stock = stock ∧ r.yearMonth = ym ∧
      r.alertType = "buy") :
    buy_eval_user log counters stock ath live u info ym today ts =
      ⟨counters, [], [], []⟩ :=
  buy_eval_user_suppressed log counters stock ath live u info ym today ts
    ((buy_alert_sent_spec log u stock ym).mpr h)

theorem claim_C2_witness :
    buy_eval_user [⟨"U", "S", "2025-10", "buy", "t0"⟩] (fun _ => 0) "S" 100 200 "U"
        ⟨"123", "user@example.com"⟩ "2025-10" "2025-10-12" "ts" =
      ⟨fun _ => 0, [], [], []⟩ :=
  claim_C2_suppression_blocks_all _ _ _ _ _ _ _ _ _ _
    ⟨⟨"U", "S", "2025-10", "buy", "t0"⟩, List.mem_cons_self _ _, rfl, rfl, rfl, rfl⟩

/-- C3: with `MAX_ALERTS_PER_TRIGGER = 5`, a would-be trigger for a buy key
whose counter has reached 5 sends nothing on either channel and leaves every
counter unchanged; moreover one buy or sell evaluation step preserves the
invariant that no counter exceeds 5. -/
theorem claim_C3_cap_and_bound :
    (∀ log (counters : Counters) stock (ath live : ℚ) u info ym today ts,
      counters (buy_alert_key u stock ath today) = MAX_ALERTS_PER_TRIGGER →
        (buy_eval_user log counters stock ath live u info ym today ts).telegramSent = [] ∧
        (buy_eval_user log counters stock ath live u info ym today ts).emailSent = [] ∧
        (buy_eval_user log counters stock ath live u info ym today ts).counters = counters) ∧
    (∀ log (counters : Counters) stock (ath live : ℚ) u info ym today ts,
      (∀ k, counters k ≤ MAX_ALERTS_PER_TRIGGER) →
      ∀ k, (buy_eval_user log counters stock ath live u info ym today ts).counters k ≤
        MAX_ALERTS_PER_TRIGGER) ∧
    (∀ um (counters : Counters) stock (bp lp s10 s20 : ℚ) uname,
      (∀ k, counters k ≤ MAX_ALERTS_PER_TRIGGER) →
      ∀ k, (sell_eval um counters stock bp lp s10 s20 uname).counters k ≤
        MAX_ALERTS_PER_TRIGGER) := by
  refine ⟨?_, ?_, ?_⟩
  · intro log c stock ath live u info ym today ts hcap
    cases hb : buy_alert_sent_this_month log u stock ym with
    | true =>
        rw [buy_eval_user_suppressed log c stock ath live u info ym today ts hb]
        exact ⟨rfl, rfl, rfl⟩
    | false =>
        by_cases hgt : live > ath
        · rw [buy_eval_user_capped log c stock ath live u info ym today ts hb hgt
            (by omega)]
          exact ⟨rfl, rfl, rfl⟩
        · rw [buy_eval_user_no_trigger log c stock ath live u info ym today ts hgt]
          exact ⟨rfl, rfl, rfl⟩
  · intro log c stock ath live u info ym today ts hbound k
    cases hb : buy_alert_sent_this_month log u stock ym with
    | true =>
        rw [buy_eval_user_suppressed log c stock ath live u info ym today ts hb]
        exact hbound k
    | false =>
        by_cases hgt : live > ath
        · by_cases hlt : c (buy_alert_key u stock ath today) < MAX_ALERTS_PER_TRIGGER
          · rw [buy_eval_user_send log c stock ath live u info ym today ts hb hgt hlt]
            by_cases hk : k = buy_alert_key u stock ath today
            · simp only [hk, if_pos]
              omega
            · simp only [hk, if_neg, if_false]
              exact hbound k
          · rw [buy_eval_user_capped log c stock ath live u info ym today ts hb hgt hlt]
            exact hbound k
        · rw [buy_eval_user_no_trigger log c stock ath live u info ym today ts hgt]
          exact hbound k
  · intro um c stock bp lp s10 s20 uname hbound k
    cases hsig : (sell_decision bp lp s10 s20).1 with
    | false =>
        rw [sell_eval_no_signal um c stock bp lp s10 s20 uname hsig]
        exact hbound k
    | true =>
        by_cases hlt : c (sell_alert_key uname stock (sell_decision bp lp s10 s20).2) <
            MAX_ALERTS_PER_TRIGGER
        · by_cases hk : k = sell_alert_key uname stock (sell_decision bp lp s10 s20).2
          · rw [hk, sell_eval_send um c stock bp lp s10 s20 uname hsig hlt]
            omega
          · rw [sell_eval_counters_frame um c stock bp lp s10 s20 uname k hk]
            exact hbound k
        · rw [sell_eval_capped um c stock bp lp s10 s20 uname hlt]
          exact hbound k

theorem claim_C3_witness :
    (buy_eval_user [] (fun _ => 5) "S" 100 110 "U" ⟨"123", "e@x"⟩ "2025-10"
      "2025-10-12" "ts").telegramSent = [] ∧
    (buy_eval_user [] (fun _ => 3) "S" 100 110 "U" ⟨"123", "e@x"⟩ "2025-10"
      "2025-10-12" "ts").counters "k0" ≤ MAX_ALERTS_PER_TRIGGER ∧
    (sell_eval [] (fun _ => 2) "S" 100 150 0 160 "U").counters "k0" ≤
      MAX_ALERTS_PER_TRIGGER :=
  ⟨(claim_C3_cap_and_bound.1 [] (fun _ => 5) "S" 100 110 "U" ⟨"123", "e@x"⟩ "2025-10"
      "2025-10-12" "ts" rfl).1,
    claim_C3_cap_and_bound.2.1 [] (fun _ => 3) "S" 100 110 "U" ⟨"123", "e@x"⟩ "2025-10"
      "2025-10-12" "ts" (fun _ => by show (3 : Nat) ≤ MAX_ALERTS_PER_TRIGGER; decide) "k0",
    claim_C3_cap_and_bound.2.2 [] (fun _ => 2) "S" 100 150 0 160 "U"
      (fun _ => by show (2 : Nat) ≤ MAX_ALERTS_PER_TRIGGER; decide) "k0"⟩

/-- C4: for an evaluation not blocked by monthly suppression and whose key is
below the cap, the buy condition triggers — observable as the counter
increment — exactly when the live price strictly exceeds the ATH reference;
at equality the evaluation is a complete no-op. -/
theorem claim_C4_strict_threshold (log : List SuppressionRecord) (counters : Counters)
    (stock : String) (ath live : ℚ) (u : String) (info : UserInfo) (ym today ts : String)
    (hns : buy_alert_sent_this_month log u stock ym = false)
    (hlt : counters (buy_alert_key u stock ath today) < MAX_ALERTS_PER_TRIGGER) :
    ((buy_eval_user log counters stock ath live u info ym today ts).counters
        (buy_alert_key u stock ath today) =
      counters (buy_alert_key u stock ath today) + 1 ↔ live > ath) ∧
    (live = ath → buy_eval_user log counters stock ath live u info ym today ts =
      ⟨counters, [], [], []⟩) := by
  constructor
  · constructor
    · intro hinc
      by_contra hgt
      rw [buy_eval_user_no_trigger log counters stock ath live u info ym today ts hgt]
        at hinc
      have hinc' : counters (buy_alert_key u stock ath today) =
          counters (buy_alert_key u stock ath today) + 1 := hinc
      omega
    · intro hgt
      rw [buy_eval_user_send log counters stock ath live u info ym today ts hns hgt hlt]
      simp
  · intro heq
    apply buy_eval_user_no_trigger
    rw [heq]
    exact lt_irrefl ath

theorem claim_C4_witness :
    (buy_eval_user [] (fun _ => 0) "S" 100 105 "U" ⟨"123", "e@x"⟩ "2025-10"
        "2025-10-12" "ts").counters (buy_alert_key "U" "S" 100 "2025-10-12") = 0 + 1 :=
  (claim_C4_strict_threshold [] (fun _ => 0) "S" 100 105 "U" ⟨"123", "e@x"⟩ "2025-10"
    "2025-10-12" "ts" rfl
    (by show (0 : Nat) < MAX_ALERTS_PER_TRIGGER; decide)).1.mpr (by norm_num)

/-- C5: for parsed numeric fields the sell evaluator is a regime switch on the
doubling test: below the double of the buy price it triggers exactly when the
live price is under a positive long-term (20-month) SMA with the long-term
reason, otherwise exactly when under a positive short-term (10-month) SMA with
the short-term reason; a zero (or unset, parsed as 0) SMA in the selected
branch never triggers. -/
theorem claim_C5_sell_regime (bp lp s10 s20 : ℚ) :
    (lp < bp * 2 →
      (((sell_decision bp lp s10 s20).1 = true) ↔ (lp < s20 ∧ s20 > 0)) ∧
      ((sell_decision bp lp s10 s20).1 = true →
        (sell_decision bp lp s10 s20).2 = sell_reason_20 s20)) ∧
    (¬ lp < bp * 2 →
      (((sell_decision bp lp s10 s20).1 = true) ↔ (lp < s10 ∧ s10 > 0)) ∧
      ((sell_decision bp lp s10 s20).1 = true →
        (sell_decision bp lp s10 s20).2 = sell_reason_10 s10)) ∧
    (lp < bp * 2 → s20 = 0 → (sell_decision bp lp s10 s20).1 = false) ∧
    (¬ lp < bp * 2 → s10 = 0 → (sell_decision bp lp s10 s20).1 = false) := by
  refine ⟨?_, ?_, ?_, ?_⟩
  · intro hdb
    by_cases ht : lp < s20 ∧ s20 > 0 <;> simp [sell_decision, hdb, ht]
  · intro hdb
    by_cases ht : lp < s10 ∧ s10 > 0 <;> simp [sell_decision, hdb, ht]
  · intro hdb h0
    simp [sell_decision, hdb, h0]
  · intro hdb h0
    simp [sell_decision, hdb, h0]

theorem claim_C5_witness :
    (sell_decision 100 150 0 160).1 = true ∧ (sell_decision 100 210 0 300).1 = false :=
  ⟨((claim_C5_sell_regime 100 150 0 160).1 (by norm_num)).1.mpr (by norm_num),
    (claim_C5_sell_regime 100 210 0 300).2.2.2 (by norm_num) rfl⟩

/-- C6: the sell phase never writes to the monthly suppression log — over any
list of holdings, prices and counter state it appends no suppression record,
and a single sell evaluation appends nothing for any input. -/
theorem claim_C6_sell_never_appends (um : List (String × UserInfo))
    (prices : String → Option ℚ) (rows : List HoldingRow) (acc : EvalOut) :
    (sell_phase um prices rows acc).appended = acc.appended ∧
    ∀ (counters : Counters) stock (bp lp s10 s20 : ℚ) uname,
      (sell_eval um counters stock bp lp s10 s20 uname).appended = [] :=
  ⟨sell_phase_appended um prices rows acc,
    fun c stock bp lp s10 s20 uname => sell_eval_appended um c stock bp lp s10 s20 uname⟩

/-- C7: a directory user with neither contact method gets no notification on
either channel, yet the buy evaluation proceeds identically — the counter is
still incremented and, on reaching the cap, the suppression record is still
appended; likewise a sell holding whose owner is absent from the user
directory dispatches nothing but still counts. -/
theorem claim_C7_no_contact_still_counts :
    (∀ log (counters : Counters) stock (ath live : ℚ) u ym today ts,
      (buy_eval_user log counters stock ath live u ⟨"", ""⟩ ym today ts).telegramSent = [] ∧
      (buy_eval_user log counters stock ath live u ⟨"", ""⟩ ym today ts).emailSent = [] ∧
      (buy_alert_sent_this_month log u stock ym = false → live > ath →
        counters (buy_alert_key u stock ath today) < MAX_ALERTS_PER_TRIGGER →
        (buy_eval_user log counters stock ath live u ⟨"", ""⟩ ym today ts).counters
            (buy_alert_key u stock ath today) =
          counters (buy_alert_key u stock ath today) + 1 ∧
        (counters (buy_alert_key u stock ath today) + 1 = MAX_ALERTS_PER_TRIGGER →
          (buy_eval_user log counters stock ath live u ⟨"", ""⟩ ym today ts).appended =
            [⟨u, stock, ym, "buy", ts⟩]))) ∧
    (∀ um (counters : Counters) stock (bp lp s10 s20 : ℚ) uname,
      lookupUser um uname = none →
      (sell_eval um counters stock bp lp s10 s20 uname).telegramSent = [] ∧
      (sell_eval um counters stock bp lp s10 s20 uname).emailSent = [] ∧
      ((sell_decision bp lp s10 s20).1 = true →
        counters (sell_alert_key uname stock (sell_decision bp lp s10 s20).2) <
          MAX_ALERTS_PER_TRIGGER →
        (sell_eval um counters stock bp lp s10 s20 uname).counters
            (sell_alert_key uname stock (sell_decision bp lp s10 s20).2) =
          counters (sell_alert_key uname stock (sell_decision bp lp s10 s20).2) + 1)) := by
  constructor
  · intro log c stock ath live u ym today ts
    refine ⟨?_, ?_, ?_⟩
    · cases hb : buy_alert_sent_this_month log u stock ym with
      | true => rw [buy_eval_user_suppressed log c stock ath live u ⟨"", ""⟩ ym today ts hb]
      | false =>
          by_cases hgt : live > ath
          · by_cases hlt : c (buy_alert_key u stock ath today) < MAX_ALERTS_PER_TRIGGER
            · rw [buy_eval_user_send log c stock ath live u ⟨"", ""⟩ ym today ts hb hgt hlt]
              simp
            · rw [buy_eval_user_capped log c stock ath live u ⟨"", ""⟩ ym today ts hb hgt hlt]
          · rw [buy_eval_user_no_trigger log c stock ath live u ⟨"", ""⟩ ym today ts hgt]
    · cases hb : buy_alert_sent_this_month log u stock ym with
      | true => rw [buy_eval_user_suppressed log c stock ath live u ⟨"", ""⟩ ym today ts hb]
      | false =>
          by_cases hgt : live > ath
          · by_cases hlt : c (buy_alert_key u stock ath today) < MAX_ALERTS_PER_TRIGGER
            · rw [buy_eval_user_send log c stock ath live u ⟨"", ""⟩ ym today ts hb hgt hlt]
              simp
            · rw [buy_eval_user_capped log c stock ath live u ⟨"", ""⟩ ym today ts hb hgt hlt]
          · rw [buy_eval_user_no_trigger log c stock ath live u ⟨"", ""⟩ ym today ts hgt]
    · intro hb hgt hlt
      rw [buy_eval_user_send log c stock ath live u ⟨"", ""⟩ ym today ts hb hgt hlt]
      refine ⟨by simp, ?_⟩
      intro h5
      simp [h5]
  · intro um c stock bp lp s10 s20 uname habs
    refine ⟨(sell_eval_no_contact um c stock bp lp s10 s20 uname habs).1,
      (sell_eval_no_contact um c stock bp lp s10 s20 uname habs).2, ?_⟩
    intro hsig hlt
    exact sell_eval_send um c stock bp lp s10 s20 uname hsig hlt

theorem claim_C7_witness :
    (buy_eval_user [] (fun _ => 4) "S" 100 110 "U" ⟨"", ""⟩ "2025-10" "2025-10-12"
      "ts").telegramSent = [] ∧
    (buy_eval_user [] (fun _ => 4) "S" 100 110 "U" ⟨"", ""⟩ "2025-10" "2025-10-12"
      "ts").appended = [⟨"U", "S", "2025-10", "buy", "ts"⟩] :=
  ⟨(claim_C7_no_contact_still_counts.1 [] (fun _ => 4) "S" 100 110 "U" "2025-10"
      "2025-10-12" "ts").1,
    ((claim_C7_no_contact_still_counts.1 [] (fun _ => 4) "S" 100 110 "U" "2025-10"
      "2025-10-12" "ts").2.2 rfl (by norm_num)
      (by show (4 : Nat) < MAX_ALERTS_PER_TRIGGER; decide)).2
      (by show (4 : Nat) + 1 = MAX_ALERTS_PER_TRIGGER; decide)⟩

/-- C8: a cycle whose body fails at any modelled raise point (sheet load or a
suppression-log append) is caught by the `try/except` of the scan loop: the
iteration still returns, keeping the counter state reached so far, and always
proceeds to the normal sleep; over any stream of environments the loop
completes exactly one sleep-and-continue step per cycle, never terminating on
a cycle error. -/
theorem claim_C8_cycle_fault_isolation :
    (∀ env (counters c : Counters),
      run_cycle env counters = Except.error c →
      main_loop_iteration env counters = (c, CHECK_INTERVAL)) ∧
    (∀ env (counters : Counters), (main_loop_iteration env counters).2 = CHECK_INTERVAL) ∧
    (∀ envs (counters : Counters), (run_cycles envs counters).2 = envs.length) := by
  refine ⟨?_, ?_, ?_⟩
  · intro env counters c h
    unfold main_loop_iteration
    rw [h]
  · intro env counters
    unfold main_loop_iteration
    cases run_cycle env counters <;> rfl
  · intro envs
    induction envs with
    | nil => intro counters; rfl
    | cons env rest ih =>
        intro counters
        unfold run_cycles
        simp [ih]

theorem claim_C8_witness :
    main_loop_iteration ⟨none, fun _ => none, false, "", "", ""⟩ (fun _ => 0) =
      (fun _ => 0, CHECK_INTERVAL) :=
  claim_C8_cycle_fault_isolation.1 ⟨none, fun _ => none, false, "", "", ""⟩
    (fun _ => 0) (fun _ => 0) rfl

/-- C9: whatever order the concurrent fetch tasks enqueue their results in,
the price map handed to the evaluators has an entry for every requested
symbol, its value determined solely by that symbol's own lookup outcome
(absent on failure or empty history) — so one symbol's failure cannot remove
or alter any other symbol's entry. -/
theorem claim_C9_price_map_complete (symbols : List String)
    (oracle : String → Option ℚ) (queue_items : List (String × Option ℚ))
    (hperm : queue_items.Perm (symbols.map (fetch_price oracle))) :
    ∀ s ∈ symbols, get_prices queue_items s = some (oracle (yf_symbol s)) := by
  intro s hs
  unfold get_prices
  apply drain_queue_found
  · intro p hp hps
    have hp' : p ∈ symbols.map (fetch_price oracle) := hperm.mem_iff.mp hp
    rcases List.mem_map.mp hp' with ⟨x, _, rfl⟩
    have hx : x = s := hps
    simp [fetch_price, hx]
  · exact ⟨fetch_price oracle s, hperm.mem_iff.mpr (List.mem_map_of_mem _ hs), rfl⟩

theorem claim_C9_witness :
    get_prices (["abc"].map (fetch_price (fun _ => none))) "abc" = some none :=
  claim_C9_price_map_complete ["abc"] (fun _ => none) _ (List.Perm.refl _) "abc"
    (by simp)

/-- C10: the sell alert key interpolates the current moving-average value into
its reason text, so for a fixed (user, stock) pair distinct SMA values — and
the two branches between themselves — produce distinct alert keys, and a sell
evaluation never touches the counter of any key other than its own: the cap
of 5 bounds repeats per distinct (user, stock, branch, SMA value). -/
theorem claim_C10_key_granularity :
    (∀ u stock (a b : ℚ), a ≠ b →
      sell_alert_key u stock (sell_reason_20 a) ≠ sell_alert_key u stock (sell_reason_20 b)) ∧
    (∀ u stock (a b : ℚ), a ≠ b →
      sell_alert_key u stock (sell_reason_10 a) ≠ sell_alert_key u stock (sell_reason_10 b)) ∧
    (∀ u stock (a b : ℚ),
      sell_alert_key u stock (sell_reason_20 a) ≠ sell_alert_key u stock (sell_reason_10 b)) ∧
    (∀ um (counters : Counters) stock (bp lp s10 s20 : ℚ) uname k,
      k ≠ sell_alert_key uname stock (sell_decision bp lp s10 s20).2 →
      (sell_eval um counters stock bp lp s10 s20 uname).counters k = counters k) := by
  refine ⟨?_, ?_, ?_, ?_⟩
  · intro u stock a b hab he
    exact sell_reason_20_inj a b hab (sell_alert_key_reason_inj u stock _ _ he)
  · intro u stock a b hab he
    exact sell_reason_10_inj a b hab (sell_alert_key_reason_inj u stock _ _ he)
  · intro u stock a b he
    exact sell_reason_branches_ne a b (sell_alert_key_reason_inj u stock _ _ he)
  · intro um c stock bp lp s10 s20 uname k hk
    exact sell_eval_counters_frame um c stock bp lp s10 s20 uname k hk

theorem claim_C10_witness :
    sell_alert_key "U" "S" (sell_reason_20 160) ≠
      sell_alert_key "U" "S" (sell_reason_20 161) ∧
    (sell_eval [] (fun _ => 0) "S" 100 150 0 160 "U").counters "" = 0 :=
  ⟨claim_C10_key_granularity.1 "U" "S" 160 161 (by norm_num),
    claim_C10_key_granularity.2.2.2 [] (fun _ => 0) "S" 100 150 0 160 "U" ""
      (empty_ne_sell_alert_key "U" "S" (sell_decision 100 150 0 160).2)⟩

end StockBot
